import Mathlib

/-!
# Verification of the galaxy n-body simulation core

Shallow embedding of the per-tick physics update of `src/main.rs`
(the `moving` system together with `limit_length` and the simulation
constants).  3-component double-precision vectors are modelled as exact
real vectors; `f64` arithmetic is idealised as arithmetic on `ℝ`, and the
narrowing of display coordinates to `f32` is the identity under this
idealisation.  The `moving` system mutates a Bevy ECS query in place; it
is modelled as a function from the list of `Star` records and the elapsed
time to the updated list together with the per-body display positions.
The unconditional `stars[0]` accesses after the integration loop panic on
an empty store, so the tick is `Option`-valued, with `none` modelling the
out-of-bounds panic.
-/

noncomputable section

namespace Galaxy

/-- 3-component vector over exact reals (models bevy's `DVec3`). -/
@[ext]
structure Vec3 where
  x : ℝ
  y : ℝ
  z : ℝ

def Vec3.zero : Vec3 := ⟨0, 0, 0⟩

def Vec3.add (a b : Vec3) : Vec3 := ⟨a.x + b.x, a.y + b.y, a.z + b.z⟩

def Vec3.sub (a b : Vec3) : Vec3 := ⟨a.x - b.x, a.y - b.y, a.z - b.z⟩

instance : Add Vec3 := ⟨Vec3.add⟩

instance : Sub Vec3 := ⟨Vec3.sub⟩

/-- Scalar multiplication (`DVec3 * f64`). -/
def Vec3.smul (c : ℝ) (v : Vec3) : Vec3 := ⟨c * v.x, c * v.y, c * v.z⟩

/-- `DVec3::length`: the Euclidean norm. -/
def Vec3.length (v : Vec3) : ℝ := Real.sqrt (v.x ^ 2 + v.y ^ 2 + v.z ^ 2)

/-- `DVec3::normalize`: the vector scaled by the reciprocal of its length. -/
def Vec3.normalize (v : Vec3) : Vec3 := Vec3.smul (v.length)⁻¹ v

/-- One simulated point mass (the `Star` struct of the source). -/
@[ext]
structure Star where
  position : Vec3
  velocity : Vec3
  acceleration : Vec3
  mass : ℝ

/- The simulation constants of the source. -/

def G : ℝ := 6.674e-11

def NUMBER_OF_STARS : ℕ := 1000

def black_hole_mass : ℝ := 0.0

def star_mass_from : ℝ := 1.0e29

def star_mass_to : ℝ := 1.0e32

def galaxy_diameter : ℝ := 1.0e13

def time_factor : ℝ := 1.0e14

def spin_factor : ℝ := 1e-5

def max_velocity : ℝ := 1e-2

def max_acceleration : ℝ := 1e-1

def min_gravity_distance : ℝ := 1.0e1

/-- `fn limit_length(v: &mut DVec3, len: f64)`: rescale `v` to magnitude
`len` when its length exceeds `len`, otherwise leave it unchanged. -/
def limit_length (v : Vec3) (len : ℝ) : Vec3 :=
  if v.length > len then Vec3.smul len v.normalize else v

/-- Default record used to make list indexing total; every loop of the
source only indexes inside the bounds, where `getS` agrees with `Vec`
indexing. -/
def starD : Star := ⟨Vec3.zero, Vec3.zero, Vec3.zero, 0⟩

/-- `stars[i]` of the source, totalised with a default. -/
def getS (l : List Star) (i : ℕ) : Star := (l[i]?).getD starD

/-- The pairwise gravity term of lines 124–129: the contribution of star
`s` to the acceleration of a body at position `p`.  Zero when the
separation does not exceed `min_gravity_distance`. -/
def gravity (p : Vec3) (s : Star) : Vec3 :=
  let distance := s.position - p
  let distance_length := distance.length
  if distance_length > min_gravity_distance then
    Vec3.smul (G * s.mass / distance_length ^ 3) distance
  else
    Vec3.zero

/-- The body of the inner `j` loop of the force accumulation (lines
122–131): fold one index `j` into the acceleration accumulator of body
`i`. -/
def innerBody (stars : List Star) (i : ℕ) (acc : Vec3) (j : ℕ) : Vec3 :=
  if i ≠ j then
    let distance := (getS stars j).position - (getS stars i).position
    let distance_length := distance.length
    if distance_length > min_gravity_distance then
      acc + Vec3.smul (G * (getS stars j).mass / distance_length ^ 3) distance
    else
      acc
  else
    acc

/-- The acceleration the inner loop accumulates for body `i` over the
list `stars`: reset to the zero vector, then fold all `j` in
`0..stars.len()` in ascending order. -/
def accFor (stars : List Star) (i : ℕ) : Vec3 :=
  (List.range stars.length).foldl (innerBody stars i) Vec3.zero

/-- One iteration of the outer `i` loop of lines 120–132.  The source
resets `stars[i].acceleration` to zero and then accumulates into it in
place; the inner loop reads only positions and masses (never an
acceleration), so accumulating locally (`accFor`) and writing the entry
back once is observationally the same in-place update. -/
def accelStep (cur : List Star) (i : ℕ) : List Star :=
  cur.set i { getS cur i with acceleration := accFor cur i }

/-- The force-accumulation phase (lines 120–132): run `accelStep` over
`i` in `0..stars.len()` in ascending order, threading the list through. -/
def accelPhase (stars : List Star) : List Star :=
  (List.range stars.length).foldl accelStep stars

/-- The integration steps of lines 135–146 for one body: clamp the
acceleration to `max_velocity`, accumulate it into the velocity, clamp
the velocity to `max_acceleration`, move the position by
`(velocity + acceleration * 0.5) * time_delta * time_factor`, and clamp
the position to `2 * galaxy_diameter`. -/
def integrateStar (dt : ℝ) (s : Star) : Star :=
  let acceleration := limit_length s.acceleration max_velocity
  let velocity := limit_length (s.velocity + acceleration) max_acceleration
  let delta := velocity + Vec3.smul 0.5 acceleration
  let position :=
    limit_length (s.position + Vec3.smul time_factor (Vec3.smul dt delta))
      (2 * galaxy_diameter)
  { position := position, velocity := velocity, acceleration := acceleration,
    mass := s.mass }

/-- Force accumulation followed by the integration loop; each iteration of
the integration loop touches only `stars[i]`, so it is the map of
`integrateStar` over the list. -/
def integPhase (stars : List Star) (dt : ℝ) : List Star :=
  (accelPhase stars).map (integrateStar dt)

/-- One iteration of the bounding-box loop of lines 152–160, including the
source's fold of the running `max` against the just-updated running `min`
(`max.x = star.position.x.max(min.x)`). -/
def bboxStep (mm : Vec3 × Vec3) (s : Star) : Vec3 × Vec3 :=
  let mn : Vec3 := ⟨min s.position.x mm.1.x, min s.position.y mm.1.y,
    min s.position.z mm.1.z⟩
  let mx : Vec3 := ⟨max s.position.x mn.x, max s.position.y mn.y,
    max s.position.z mn.z⟩
  (mn, mx)

/-- The bounding box of lines 150–160, with both accumulators initialised
from `stars[0].position`. -/
def boundingBox (l : List Star) (p0 : Vec3) : Vec3 × Vec3 :=
  l.foldl bboxStep (p0, p0)

/-- One tick of the `moving` system (lines 110–175) on the snapshot list:
force accumulation, integration, the unconditional anchor pin
`stars[0].position = DVec3::default()`, the (dead) bounding-box pass, and
the display mapping `(position - ofs) * scale` with `ofs` the zero vector
and `scale = 1000 / galaxy_diameter`.  On an empty store the anchor pin
(and the bounding-box initialisation) index `stars[0]` out of bounds and
panic, modelled by `none`. -/
def tick (stars : List Star) (dt : ℝ) : Option (List Star × List Vec3) :=
  match integPhase stars dt with
  | [] => none
  | s :: rest =>
    let s3 : List Star := { s with position := Vec3.zero } :: rest
    let bb := boundingBox s3 (getS s3 0).position
    let _max_delta : ℝ :=
      max (max (bb.2.x - bb.1.x) (bb.2.y - bb.1.y)) (bb.2.z - bb.1.z)
    let ofs : Vec3 := Vec3.zero
    let scale : ℝ := 1000 / galaxy_diameter
    some (s3, s3.map fun b => Vec3.smul scale (b.position - ofs))

/-- The star list after one tick, discarding the display output. -/
def tickStars (stars : List Star) (dt : ℝ) : Option (List Star) :=
  (tick stars dt).map Prod.fst

/-- Run a sequence of ticks with the given elapsed-time values. -/
def runTicks (stars : List Star) : List ℝ → Option (List Star)
  | [] => some stars
  | dt :: rest =>
    match tickStars stars dt with
    | none => none
    | some s => runTicks s rest

/-! ## Component and algebra lemmas for `Vec3` -/

@[simp]
lemma Vec3.zero_x : Vec3.zero.x = 0 := rfl

@[simp]
lemma Vec3.zero_y : Vec3.zero.y = 0 := rfl

@[simp]
lemma Vec3.zero_z : Vec3.zero.z = 0 := rfl

@[simp]
lemma Vec3.add_x (a b : Vec3) : (a + b).x = a.x + b.x := rfl

@[simp]
lemma Vec3.add_y (a b : Vec3) : (a + b).y = a.y + b.y := rfl

@[simp]
lemma Vec3.add_z (a b : Vec3) : (a + b).z = a.z + b.z := rfl

@[simp]
lemma Vec3.sub_x (a b : Vec3) : (a - b).x = a.x - b.x := rfl

@[simp]
lemma Vec3.sub_y (a b : Vec3) : (a - b).y = a.y - b.y := rfl

@[simp]
lemma Vec3.sub_z (a b : Vec3) : (a - b).z = a.z - b.z := rfl

@[simp]
lemma Vec3.smul_x (c : ℝ) (v : Vec3) : (Vec3.smul c v).x = c * v.x := rfl

@[simp]
lemma Vec3.smul_y (c : ℝ) (v : Vec3) : (Vec3.smul c v).y = c * v.y := rfl

@[simp]
lemma Vec3.smul_z (c : ℝ) (v : Vec3) : (Vec3.smul c v).z = c * v.z := rfl

@[simp]
lemma Vec3.add_zero' (v : Vec3) : v + Vec3.zero = v := by ext <;> simp

@[simp]
lemma Vec3.zero_add' (v : Vec3) : Vec3.zero + v = v := by ext <;> simp

@[simp]
lemma Vec3.sub_zero' (v : Vec3) : v - Vec3.zero = v := by ext <;> simp

@[simp]
lemma Vec3.smul_zero' (c : ℝ) : Vec3.smul c Vec3.zero = Vec3.zero := by ext <;> simp

lemma Vec3.length_nonneg (v : Vec3) : 0 ≤ v.length := Real.sqrt_nonneg _

@[simp]
lemma Vec3.length_zero : Vec3.zero.length = 0 := by
  simp [Vec3.length]

lemma Vec3.length_smul (c : ℝ) (v : Vec3) :
    (Vec3.smul c v).length = |c| * v.length := by
  unfold Vec3.length
  rw [show (Vec3.smul c v).x ^ 2 + (Vec3.smul c v).y ^ 2 + (Vec3.smul c v).z ^ 2
        = c ^ 2 * (v.x ^ 2 + v.y ^ 2 + v.z ^ 2) by simp; ring,
    Real.sqrt_mul (sq_nonneg c), Real.sqrt_sq_eq_abs]

lemma Vec3.length_sub_comm (a b : Vec3) : (a - b).length = (b - a).length := by
  unfold Vec3.length
  congr 1
  simp
  ring

/-! ## Lemmas about `limit_length` -/

lemma limit_length_of_le {v : Vec3} {len : ℝ} (h : v.length ≤ len) :
    limit_length v len = v := by
  unfold limit_length
  rw [if_neg (not_lt.mpr h)]

lemma limit_length_zero_vec (len : ℝ) : limit_length Vec3.zero len = Vec3.zero := by
  unfold limit_length
  split <;> simp [Vec3.normalize]

lemma limit_length_length_le (v : Vec3) (len : ℝ) (h : 0 ≤ len) :
    (limit_length v len).length ≤ len := by
  unfold limit_length
  by_cases hv : v.length > len
  · rw [if_pos hv]
    have hvpos : 0 < v.length := lt_of_le_of_lt h hv
    rw [Vec3.normalize, Vec3.length_smul, Vec3.length_smul,
      abs_of_nonneg h, abs_of_nonneg (inv_nonneg.mpr hvpos.le),
      inv_mul_cancel₀ (ne_of_gt hvpos), mul_one]
  · rw [if_neg hv]
    exact not_lt.mp hv

/-! ## Lemmas about list indexing -/

@[simp]
lemma getS_cons_zero (a : Star) (l : List Star) : getS (a :: l) 0 = a := by
  simp [getS]

@[simp]
lemma getS_cons_succ (a : Star) (l : List Star) (k : ℕ) :
    getS (a :: l) (k + 1) = getS l k := by
  simp [getS]

lemma getS_set (l : List Star) (i k : ℕ) (a : Star) :
    getS (l.set i a) k = if i = k ∧ i < l.length then a else getS l k := by
  unfold getS
  rw [List.getElem?_set]
  by_cases hik : i = k
  · subst hik
    by_cases hi : i < l.length
    · simp [hi]
    · simp [hi, List.getElem?_eq_none (le_of_not_lt hi)]
  · simp [hik]

lemma getS_map (f : Star → Star) (l : List Star) (i : ℕ) (hi : i < l.length) :
    getS (l.map f) i = f (getS l i) := by
  unfold getS
  rw [List.getElem?_map, List.getElem?_eq_getElem hi]
  rfl

/-! ## The force-accumulation phase computes from the pre-tick snapshot -/

lemma foldl_fn_congr {α β : Type*} (f g : α → β → α) (h : ∀ a b, f a b = g a b) :
    ∀ (xs : List β) (a : α), xs.foldl f a = xs.foldl g a := by
  intro xs
  induction xs with
  | nil => intro a; rfl
  | cons x xs ih => intro a; rw [List.foldl_cons, List.foldl_cons, h, ih]

/-- `innerBody` reads only positions and masses. -/
lemma innerBody_congr (l l' : List Star)
    (hpos : ∀ k, (getS l k).position = (getS l' k).position)
    (hmass : ∀ k, (getS l k).mass = (getS l' k).mass)
    (i : ℕ) (a : Vec3) (j : ℕ) :
    innerBody l i a j = innerBody l' i a j := by
  unfold innerBody
  rw [hpos i, hpos j, hmass j]

lemma accFor_congr (l l' : List Star) (hlen : l.length = l'.length)
    (hpos : ∀ k, (getS l k).position = (getS l' k).position)
    (hmass : ∀ k, (getS l k).mass = (getS l' k).mass)
    (i : ℕ) : accFor l i = accFor l' i := by
  unfold accFor
  rw [hlen]
  exact foldl_fn_congr _ _ (fun a j => innerBody_congr l l' hpos hmass i a j) _ _

/-- Invariant of the outer force loop: positions, masses and velocities
never change, and every visited in-range index ends up carrying the
acceleration computed from the pre-loop snapshot `s`. -/
lemma accelFold (s : List Star) (ixs : List ℕ) :
    ∀ l : List Star, l.length = s.length →
    (∀ k, (getS l k).position = (getS s k).position) →
    (∀ k, (getS l k).mass = (getS s k).mass) →
    (∀ k, (getS l k).velocity = (getS s k).velocity) →
    (ixs.foldl accelStep l).length = s.length ∧
    (∀ k, (getS (ixs.foldl accelStep l) k).position = (getS s k).position) ∧
    (∀ k, (getS (ixs.foldl accelStep l) k).mass = (getS s k).mass) ∧
    (∀ k, (getS (ixs.foldl accelStep l) k).velocity = (getS s k).velocity) ∧
    (∀ i, i ∈ ixs → i < s.length →
      (getS (ixs.foldl accelStep l) i).acceleration = accFor s i) ∧
    (∀ i, i ∉ ixs →
      (getS (ixs.foldl accelStep l) i).acceleration = (getS l i).acceleration) := by
  induction ixs with
  | nil =>
    intro l hlen hpos hmass hvel
    refine ⟨hlen, hpos, hmass, hvel, ?_, ?_⟩
    · intro i hi
      exact absurd hi (List.not_mem_nil i)
    · intro i _
      rfl
  | cons i0 rest ih =>
    intro l hlen hpos hmass hvel
    simp only [List.foldl_cons]
    have hget' : ∀ k, getS (accelStep l i0) k =
        if i0 = k ∧ i0 < l.length
        then { getS l i0 with acceleration := accFor l i0 }
        else getS l k := by
      intro k
      rw [accelStep, getS_set]
    have hlen' : (accelStep l i0).length = s.length := by
      rw [accelStep, List.length_set, hlen]
    have hpos' : ∀ k, (getS (accelStep l i0) k).position = (getS s k).position := by
      intro k
      rw [hget' k]
      split
      · next hcond => obtain ⟨rfl, -⟩ := hcond; exact hpos i0
      · exact hpos k
    have hmass' : ∀ k, (getS (accelStep l i0) k).mass = (getS s k).mass := by
      intro k
      rw [hget' k]
      split
      · next hcond => obtain ⟨rfl, -⟩ := hcond; exact hmass i0
      · exact hmass k
    have hvel' : ∀ k, (getS (accelStep l i0) k).velocity = (getS s k).velocity := by
      intro k
      rw [hget' k]
      split
      · next hcond => obtain ⟨rfl, -⟩ := hcond; exact hvel i0
      · exact hvel k
    obtain ⟨H1, H2, H3, H4, H5, H6⟩ := ih (accelStep l i0) hlen' hpos' hmass' hvel'
    refine ⟨H1, H2, H3, H4, ?_, ?_⟩
    · intro i hi hilt
      rcases List.mem_cons.mp hi with hcase | hcase
      · subst hcase
        by_cases hmem : i ∈ rest
        · exact H5 i hmem hilt
        · rw [H6 i hmem, hget' i, if_pos ⟨rfl, by rw [hlen]; exact hilt⟩]
          exact accFor_congr l s hlen hpos hmass i
      · exact H5 i hcase hilt
    · intro i hi
      have hi0 : i ≠ i0 := fun hh => hi (hh ▸ List.mem_cons_self i0 rest)
      have hrest : i ∉ rest := fun hh => hi (List.mem_cons_of_mem _ hh)
      rw [H6 i hrest, hget' i,
        if_neg (fun hcond => hi0 hcond.1.symm)]

lemma accelPhase_length (stars : List Star) :
    (accelPhase stars).length = stars.length :=
  (accelFold stars (List.range stars.length) stars rfl (fun _ => rfl)
    (fun _ => rfl) (fun _ => rfl)).1

/-- After the force-accumulation phase, entry `i` is the original star with
its acceleration replaced by the sum computed from the pre-tick snapshot. -/
lemma accelPhase_getS (stars : List Star) (i : ℕ) (hi : i < stars.length) :
    getS (accelPhase stars) i =
      { getS stars i with acceleration := accFor stars i } := by
  obtain ⟨-, hpos, hmass, hvel, hacc, -⟩ :=
    accelFold stars (List.range stars.length) stars rfl (fun _ => rfl)
      (fun _ => rfl) (fun _ => rfl)
  rw [accelPhase]
  apply Star.ext
  · exact hpos i
  · exact hvel i
  · exact hacc i (List.mem_range.mpr hi) hi
  · exact hmass i

lemma integPhase_length (stars : List Star) (dt : ℝ) :
    (integPhase stars dt).length = stars.length := by
  rw [integPhase, List.length_map]
  exact accelPhase_length stars

/-- Entry `i` after force accumulation and integration. -/
lemma integPhase_getS (stars : List Star) (dt : ℝ) (i : ℕ) (hi : i < stars.length) :
    getS (integPhase stars dt) i =
      integrateStar dt { getS stars i with acceleration := accFor stars i } := by
  rw [integPhase, getS_map _ _ _ (by rw [accelPhase_length]; exact hi),
    accelPhase_getS stars i hi]

/-! ## Structure of one tick -/

lemma tick_nil_of (stars : List Star) (dt : ℝ) (h : integPhase stars dt = []) :
    tick stars dt = none := by
  unfold tick
  rw [h]

lemma tick_cons_of (stars : List Star) (dt : ℝ) (s : Star) (rest : List Star)
    (h : integPhase stars dt = s :: rest) :
    tick stars dt = some ({ s with position := Vec3.zero } :: rest,
      ({ s with position := Vec3.zero } :: rest).map fun b =>
        Vec3.smul (1000 / galaxy_diameter) (b.position - Vec3.zero)) := by
  unfold tick
  rw [h]

lemma tick_some_elim {stars : List Star} {dt : ℝ} {out : List Star}
    {disp : List Vec3} (h : tick stars dt = some (out, disp)) :
    ∃ s rest, integPhase stars dt = s :: rest ∧
      out = { s with position := Vec3.zero } :: rest ∧
      disp = out.map fun b =>
        Vec3.smul (1000 / galaxy_diameter) (b.position - Vec3.zero) := by
  cases hc : integPhase stars dt with
  | nil =>
    rw [tick_nil_of stars dt hc] at h
    exact absurd h (by simp)
  | cons s rest =>
    rw [tick_cons_of stars dt s rest hc] at h
    have h' := Option.some.inj h
    have h1 : { s with position := Vec3.zero } :: rest = out :=
      congrArg Prod.fst h'
    have h2 : (({ s with position := Vec3.zero } :: rest).map fun b =>
        Vec3.smul (1000 / galaxy_diameter) (b.position - Vec3.zero)) = disp :=
      congrArg Prod.snd h'
    refine ⟨s, rest, ?_, ?_, ?_⟩
    · rfl
    · exact h1.symm
    · rw [← h1]
      exact h2.symm

lemma tick_out_length {stars : List Star} {dt : ℝ} {out : List Star}
    {disp : List Vec3} (h : tick stars dt = some (out, disp)) :
    out.length = stars.length := by
  obtain ⟨s, rest, hc, rfl, -⟩ := tick_some_elim h
  have hl := integPhase_length stars dt
  rw [hc] at hl
  simpa using hl

/-- The post-tick value of body `i`: integrated from the snapshot
accelerations, with the anchor's position overwritten by the origin. -/
lemma tick_getS {stars : List Star} {dt : ℝ} {out : List Star}
    {disp : List Vec3} (h : tick stars dt = some (out, disp)) (i : ℕ)
    (hi : i < out.length) :
    getS out i =
      if i = 0
      then { integrateStar dt { getS stars 0 with acceleration := accFor stars 0 }
              with position := Vec3.zero }
      else integrateStar dt { getS stars i with acceleration := accFor stars i } := by
  have hlen := tick_out_length h
  obtain ⟨s, rest, hc, rfl, -⟩ := tick_some_elim h
  have histars : i < stars.length := by rw [← hlen]; exact hi
  cases i with
  | zero =>
    rw [if_pos rfl, getS_cons_zero]
    have h0 : getS (integPhase stars dt) 0 =
        integrateStar dt { getS stars 0 with acceleration := accFor stars 0 } :=
      integPhase_getS stars dt 0 histars
    rw [hc, getS_cons_zero] at h0
    rw [h0]
  | succ k =>
    rw [if_neg (Nat.succ_ne_zero k), getS_cons_succ]
    have hk : getS (integPhase stars dt) (k + 1) =
        integrateStar dt
          { getS stars (k + 1) with acceleration := accFor stars (k + 1) } :=
      integPhase_getS stars dt (k + 1) histars
    rw [hc, getS_cons_succ] at hk
    exact hk

/-! ## A concrete tick on the one-body store of all-zero records -/

lemma range_one_eq : List.range 1 = [0] := by
  simp [List.range_succ]

lemma accFor_single_zero : accFor [starD] 0 = Vec3.zero := by
  simp [accFor, range_one_eq, innerBody]

lemma accelPhase_single_zero : accelPhase [starD] = [starD] := by
  rw [accelPhase]
  simp only [List.length_cons, List.length_nil, Nat.zero_add, range_one_eq,
    List.foldl_cons, List.foldl_nil]
  rw [accelStep, getS_cons_zero, accFor_single_zero]
  simp [starD]

lemma integrateStar_zero : integrateStar 0 starD = starD := by
  rw [integrateStar]
  simp [starD, limit_length_zero_vec]

lemma tick_zero_eval : tick [starD] 0 = some ([starD], [Vec3.zero]) := by
  have h4 : integPhase [starD] 0 = [starD] := by
    rw [integPhase, accelPhase_single_zero]
    simp [integrateStar_zero]
  rw [tick_cons_of [starD] 0 starD [] h4]
  simp [starD]

/-! ## Projections of the integration step -/

lemma integrateStar_acceleration (dt : ℝ) (s : Star) :
    (integrateStar dt s).acceleration = limit_length s.acceleration max_velocity := rfl

lemma integrateStar_velocity (dt : ℝ) (s : Star) :
    (integrateStar dt s).velocity =
      limit_length (s.velocity + limit_length s.acceleration max_velocity)
        max_acceleration := rfl

lemma integrateStar_mass (dt : ℝ) (s : Star) :
    (integrateStar dt s).mass = s.mass := rfl

/-- Two concrete bodies used to instantiate the mass-asymmetry theorem. -/
def starA : Star := ⟨Vec3.zero, Vec3.zero, Vec3.zero, 1⟩

def starB : Star := ⟨⟨20, 0, 0⟩, Vec3.zero, Vec3.zero, 2⟩

lemma starB_sub_starA_length : (starB.position - starA.position).length = 20 := by
  rw [starB, starA]
  simp only [Vec3.sub_zero']
  rw [Vec3.length]
  norm_num
  rw [show (400:ℝ) = 20 ^ 2 by norm_num]
  exact Real.sqrt_sq (by norm_num)

/-! ## The claims -/

/-- C1: each tick's force accumulation resets body `i`'s acceleration to
the zero vector and then, for every other index `j ≠ i` taken in ascending
order (the fold over `List.range`), adds the gravity term exactly when the
separation exceeds the softening threshold; every term is computed from
the pre-tick snapshot `stars`, never from the partially updated list. -/
theorem c1_force_accumulation_snapshot (stars : List Star) (i : ℕ)
    (hi : i < stars.length) :
    getS (accelPhase stars) i =
      { getS stars i with
        acceleration :=
          (List.range stars.length).foldl (innerBody stars i) Vec3.zero } :=
  accelPhase_getS stars i hi

/-- Witness for C1 at the singleton store of the all-zero record. -/
theorem c1_witness :
    0 < ([starD] : List Star).length ∧
    getS (accelPhase [starD]) 0 =
      { getS [starD] 0 with
        acceleration :=
          (List.range ([starD] : List Star).length).foldl
            (innerBody [starD] 0) Vec3.zero } :=
  ⟨by decide, c1_force_accumulation_snapshot [starD] 0 (by decide)⟩

/-- C2: each body's integration performs, in order: clamp the acceleration
magnitude to `max_velocity` (limit A), add the clamped acceleration to the
velocity with no timestep factor, clamp the velocity magnitude to
`max_acceleration` (limit B), add
`(velocity + acceleration * 0.5) * elapsed_time * time_factor` to the
position, and clamp the position magnitude to `2 * galaxy_diameter`. -/
theorem c2_integration_step_order (stars : List Star) (dt : ℝ) (i : ℕ)
    (hi : i < stars.length) :
    getS (integPhase stars dt) i =
      (let s := getS stars i
       let acceleration := limit_length (accFor stars i) max_velocity
       let velocity :=
         limit_length (s.velocity + acceleration) max_acceleration
       let delta := velocity + Vec3.smul 0.5 acceleration
       let position :=
         limit_length (s.position + Vec3.smul time_factor (Vec3.smul dt delta))
           (2 * galaxy_diameter)
       { position := position, velocity := velocity,
         acceleration := acceleration, mass := s.mass }) := by
  rw [integPhase_getS stars dt i hi]
  rfl

/-- Witness for C2 at the singleton store of the all-zero record. -/
theorem c2_witness :
    0 < ([starD] : List Star).length ∧
    getS (integPhase [starD] 0) 0 =
      (let s := getS [starD] 0
       let acceleration := limit_length (accFor [starD] 0) max_velocity
       let velocity :=
         limit_length (s.velocity + acceleration) max_acceleration
       let delta := velocity + Vec3.smul 0.5 acceleration
       let position :=
         limit_length
           (s.position + Vec3.smul time_factor (Vec3.smul (0:ℝ) delta))
           (2 * galaxy_diameter)
       { position := position, velocity := velocity,
         acceleration := acceleration, mass := s.mass }) :=
  ⟨by decide, c2_integration_step_order [starD] 0 0 (by decide)⟩

/-- C4: whenever a tick completes on a non-empty store, the body at index
0 ends the tick with position exactly the origin vector, regardless of its
mass, velocity, and acceleration history. -/
theorem c4_anchor_pin (stars out : List Star) (disp : List Vec3) (dt : ℝ)
    (h : tick stars dt = some (out, disp)) :
    (getS out 0).position = Vec3.zero := by
  obtain ⟨s, rest, hc, rfl, -⟩ := tick_some_elim h
  rw [getS_cons_zero]

/-- Witness for C4 on a concrete completed tick. -/
theorem c4_witness :
    tick [starD] 0 = some ([starD], [Vec3.zero]) ∧
    (getS ([starD] : List Star) 0).position = Vec3.zero :=
  ⟨tick_zero_eval, c4_anchor_pin [starD] [starD] [Vec3.zero] 0 tick_zero_eval⟩

/-- C5: when the separation of two distinct bodies `i ≠ j` is at most the
softening threshold `min_gravity_distance`, the pair contributes exactly
nothing to body `i`'s accumulated acceleration: the inner-loop step leaves
the accumulator unchanged (a total function, no error signalling). -/
theorem c5_softening_zero_contribution (stars : List Star) (i j : ℕ)
    (a : Vec3) (hij : i ≠ j)
    (hsep : ((getS stars j).position - (getS stars i).position).length
      ≤ min_gravity_distance) :
    innerBody stars i a j = a := by
  simp only [innerBody]
  rw [if_pos hij, if_neg (not_lt.mpr hsep)]

/-- Witness for C5 at two coincident all-zero bodies. -/
theorem c5_witness :
    (0 : ℕ) ≠ 1 ∧
    ((getS [starD, starD] 1).position - (getS [starD, starD] 0).position).length
      ≤ min_gravity_distance ∧
    innerBody [starD, starD] 0 Vec3.zero 1 = Vec3.zero := by
  have hsep : ((getS [starD, starD] 1).position
      - (getS [starD, starD] 0).position).length ≤ min_gravity_distance := by
    simp [starD]
    norm_num [min_gravity_distance]
  exact ⟨by decide, hsep,
    c5_softening_zero_contribution [starD, starD] 0 1 Vec3.zero (by decide) hsep⟩

/-- C7 counterexample: on the empty Body Store, the tick does not complete
normally — the unconditional `stars[0]` anchor-pin access is out of
bounds, modelled by `none`, so the update is not a mutation-free no-op
that returns an (empty) output. -/
theorem c7_counterexample_empty_store : tick ([] : List Star) 1 = none := rfl

/-- C7 (amended): when the Body Store contains zero bodies, the per-tick
update does not complete normally: the unconditional indexing of body 0
for the anchor pin is out of bounds (a panic in the source), so no updated
store and no output positions are produced. -/
theorem c7_empty_store_panics : ∀ dt : ℝ, tick ([] : List Star) dt = none :=
  fun _ => rfl

/-- C9: the per-tick update is a deterministic function of the Body array
and the elapsed-time value alone, so two runs from equal initial stores
fed equal elapsed-time sequences agree after every tick (every prefix of
the tick sequence). -/
theorem c9_determinism (s1 s2 : List Star) (d1 d2 : List ℝ)
    (hs : s1 = s2) (hd : d1 = d2) :
    ∀ k : ℕ, runTicks s1 (d1.take k) = runTicks s2 (d2.take k) := by
  subst hs
  subst hd
  intro k
  rfl

/-- Witness for C9 on a concrete store and tick sequence. -/
theorem c9_witness :
    ([starD] : List Star) = [starD] ∧ ([(1:ℝ)] : List ℝ) = [(1:ℝ)] ∧
    ∀ k : ℕ, runTicks [starD] ([(1:ℝ)].take k)
      = runTicks [starD] ([(1:ℝ)].take k) :=
  ⟨rfl, rfl, c9_determinism [starD] [starD] [(1:ℝ)] [(1:ℝ)] rfl rfl⟩

/-- C3: after a completed tick, every stored body satisfies the three
magnitude bounds: acceleration at most `max_velocity` (the limit the
source applies to acceleration), velocity at most `max_acceleration`, and
position at most `2 * galaxy_diameter`; and the clamp function leaves the
zero vector unchanged for every non-negative limit, never dividing by
zero. -/
theorem c3_clamp_invariants (stars out : List Star) (disp : List Vec3)
    (dt : ℝ) (h : tick stars dt = some (out, disp)) :
    (∀ lim : ℝ, 0 ≤ lim → limit_length Vec3.zero lim = Vec3.zero) ∧
    ∀ i, i < out.length →
      (getS out i).acceleration.length ≤ max_velocity ∧
      (getS out i).velocity.length ≤ max_acceleration ∧
      (getS out i).position.length ≤ 2 * galaxy_diameter := by
  have hA : (0:ℝ) ≤ max_velocity := by norm_num [max_velocity]
  have hB : (0:ℝ) ≤ max_acceleration := by norm_num [max_acceleration]
  have hD : (0:ℝ) ≤ 2 * galaxy_diameter := by norm_num [galaxy_diameter]
  constructor
  · intro lim _
    exact limit_length_zero_vec lim
  · intro i hi
    rw [tick_getS h i hi]
    by_cases h0 : i = 0
    · rw [if_pos h0]
      refine ⟨?_, ?_, ?_⟩
      · rw [show ({ integrateStar dt
              { getS stars 0 with acceleration := accFor stars 0 } with
              position := Vec3.zero } : Star).acceleration
            = (integrateStar dt
              { getS stars 0 with acceleration := accFor stars 0 }).acceleration
            from rfl, integrateStar_acceleration]
        exact limit_length_length_le _ _ hA
      · rw [show ({ integrateStar dt
              { getS stars 0 with acceleration := accFor stars 0 } with
              position := Vec3.zero } : Star).velocity
            = (integrateStar dt
              { getS stars 0 with acceleration := accFor stars 0 }).velocity
            from rfl, integrateStar_velocity]
        exact limit_length_length_le _ _ hB
      · rw [show ({ integrateStar dt
              { getS stars 0 with acceleration := accFor stars 0 } with
              position := Vec3.zero } : Star).position = Vec3.zero from rfl,
          Vec3.length_zero]
        exact hD
    · rw [if_neg h0]
      refine ⟨?_, ?_, ?_⟩
      · rw [integrateStar_acceleration]
        exact limit_length_length_le _ _ hA
      · rw [integrateStar_velocity]
        exact limit_length_length_le _ _ hB
      · exact limit_length_length_le _ _ hD

/-- Witness for C3 on a concrete completed tick. -/
theorem c3_witness :
    tick [starD] 0 = some ([starD], [Vec3.zero]) ∧
    ((∀ lim : ℝ, 0 ≤ lim → limit_length Vec3.zero lim = Vec3.zero) ∧
     ∀ i, i < ([starD] : List Star).length →
       (getS [starD] i).acceleration.length ≤ max_velocity ∧
       (getS [starD] i).velocity.length ≤ max_acceleration ∧
       (getS [starD] i).position.length ≤ 2 * galaxy_diameter) :=
  ⟨tick_zero_eval,
    c3_clamp_invariants [starD] [starD] [Vec3.zero] 0 tick_zero_eval⟩

/-- C6: the display output of a completed tick is exactly the
post-integration positions scaled by the fixed constant
`1000 / galaxy_diameter` with zero offset (the bounding box computed in
the same pass does not enter the formula), and a body at simulation
position `(galaxy_diameter, 0, 0)` maps to display position
`(1000, 0, 0)` exactly. -/
theorem c6_display_mapping (stars out : List Star) (disp : List Vec3)
    (dt : ℝ) (h : tick stars dt = some (out, disp)) :
    disp = out.map (fun b => Vec3.smul (1000 / galaxy_diameter) b.position) ∧
    Vec3.smul (1000 / galaxy_diameter)
      ((⟨galaxy_diameter, 0, 0⟩ : Vec3) - Vec3.zero) = ⟨1000, 0, 0⟩ := by
  constructor
  · obtain ⟨s, rest, hc, hout, hdisp⟩ := tick_some_elim h
    rw [hdisp]
    simp only [Vec3.sub_zero']
  · ext <;> norm_num [galaxy_diameter]

/-- Witness for C6 on a concrete completed tick. -/
theorem c6_witness :
    tick [starD] 0 = some ([starD], [Vec3.zero]) ∧
    (([Vec3.zero] : List Vec3) = ([starD] : List Star).map
        (fun b => Vec3.smul (1000 / galaxy_diameter) b.position) ∧
      Vec3.smul (1000 / galaxy_diameter)
        ((⟨galaxy_diameter, 0, 0⟩ : Vec3) - Vec3.zero) = ⟨1000, 0, 0⟩) :=
  ⟨tick_zero_eval,
    c6_display_mapping [starD] [starD] [Vec3.zero] 0 tick_zero_eval⟩

/-- C8: for bodies `A` and `B` with `0 ≤ mass A < mass B` at separation
`r` above the softening threshold, the pre-clamp acceleration magnitude
induced on `A` by `B` is `G * mass B / r^2`, the one induced on `B` by
`A` is `G * mass A / r^2`, and the lighter body experiences the larger
acceleration. -/
theorem c8_mass_asymmetry (sA sB : Star) (r : ℝ)
    (hr : r = (sB.position - sA.position).length)
    (hthr : r > min_gravity_distance)
    (hA : 0 ≤ sA.mass) (hAB : sA.mass < sB.mass) :
    (gravity sA.position sB).length = G * sB.mass / r ^ 2 ∧
    (gravity sB.position sA).length = G * sA.mass / r ^ 2 ∧
    G * sA.mass / r ^ 2 < G * sB.mass / r ^ 2 := by
  have hG : (0:ℝ) < G := by norm_num [G]
  have hr0 : (0:ℝ) < r := lt_trans (by norm_num [min_gravity_distance]) hthr
  have hBm : 0 ≤ sB.mass := le_of_lt (lt_of_le_of_lt hA hAB)
  have hterm : ∀ (p q : Vec3) (m : ℝ), 0 ≤ m → (q - p).length = r →
      (Vec3.smul (G * m / (q - p).length ^ 3) (q - p)).length
        = G * m / r ^ 2 := by
    intro p q m hm hlen
    rw [Vec3.length_smul, hlen, abs_of_nonneg (by positivity)]
    field_simp
    ring
  refine ⟨?_, ?_, ?_⟩
  · simp only [gravity]
    rw [if_pos (by rw [← hr]; exact hthr)]
    exact hterm sA.position sB.position sB.mass hBm hr.symm
  · simp only [gravity]
    have hlen2 : (sA.position - sB.position).length = r := by
      rw [Vec3.length_sub_comm]
      exact hr.symm
    rw [if_pos (by rw [hlen2]; exact hthr)]
    exact hterm sB.position sA.position sA.mass hA hlen2
  · exact div_lt_div_of_pos_right (mul_lt_mul_of_pos_left hAB hG)
      (pow_pos hr0 2)

/-- Witness for C8 at two concrete bodies 20 units apart with masses 1
and 2. -/
theorem c8_witness :
    (20:ℝ) = (starB.position - starA.position).length ∧
    (20:ℝ) > min_gravity_distance ∧
    (0:ℝ) ≤ starA.mass ∧ starA.mass < starB.mass ∧
    ((gravity starA.position starB).length = G * starB.mass / 20 ^ 2 ∧
     (gravity starB.position starA).length = G * starA.mass / 20 ^ 2 ∧
     G * starA.mass / 20 ^ 2 < G * starB.mass / 20 ^ 2) := by
  have hr : (20:ℝ) = (starB.position - starA.position).length :=
    starB_sub_starA_length.symm
  have hthr : (20:ℝ) > min_gravity_distance := by
    norm_num [min_gravity_distance]
  have hA : (0:ℝ) ≤ starA.mass := by norm_num [starA]
  have hAB : starA.mass < starB.mass := by norm_num [starA, starB]
  exact ⟨hr, hthr, hA, hAB, c8_mass_asymmetry starA starB 20 hr hthr hA hAB⟩

/-- C10: the end-of-tick anchor override rewrites only body 0's position:
every body — the anchor included — is integrated by the same steps from
the snapshot accelerations and keeps its integrated velocity and
acceleration, every body keeps its mass, and non-anchor bodies are exactly
the integrated records, untouched by the override. -/
theorem c10_anchor_override_frame (stars out : List Star) (disp : List Vec3)
    (dt : ℝ) (h : tick stars dt = some (out, disp)) :
    ∀ i, i < out.length →
      (getS out i).mass = (getS stars i).mass ∧
      getS out i =
        (if i = 0
         then { integrateStar dt
                 { getS stars 0 with acceleration := accFor stars 0 } with
                 position := Vec3.zero }
         else integrateStar dt
           { getS stars i with acceleration := accFor stars i }) := by
  intro i hi
  refine ⟨?_, tick_getS h i hi⟩
  rw [tick_getS h i hi]
  by_cases h0 : i = 0
  · subst h0
    rw [if_pos rfl]
    rfl
  · rw [if_neg h0, integrateStar_mass]

/-- Witness for C10 on a concrete completed tick. -/
theorem c10_witness :
    tick [starD] 0 = some ([starD], [Vec3.zero]) ∧
    ∀ i, i < ([starD] : List Star).length →
      (getS [starD] i).mass = (getS [starD] i).mass ∧
      getS [starD] i =
        (if i = 0
         then { integrateStar 0
                 { getS [starD] 0 with acceleration := accFor [starD] 0 } with
                 position := Vec3.zero }
         else integrateStar 0
           { getS [starD] i with acceleration := accFor [starD] i }) :=
  ⟨tick_zero_eval,
    c10_anchor_override_frame [starD] [starD] [Vec3.zero] 0 tick_zero_eval⟩

end Galaxy
